import Mathlib

/-!
Verification of the WhatsApp event-mining service against its specification.

The development shallowly embeds the source modules:
* `src/openrouter.ts` — LLM call retry/backoff policy and classification;
* `src/connection.ts` — connection-state classification and reconnect backoff;
* `src/config.ts` — allow-list parsing and admission;
* `src/message-handler.ts` — the per-message pipeline;
* `src/db/event-storage.ts`, `src/db/schema.ts`, `src/db/markdown.ts` — the
  event store with its unique keys, and markdown normalization.

External collaborators (the SQLite engine's uniqueness checks and ordering,
the JavaScript `Date`/`String`/regex primitives, the baileys
`DisconnectReason` codes) are modelled by explicit, executable Lean
definitions faithful to their documented behaviour.
-/

/-! ## OpenRouter client: retry with exponential backoff (`src/openrouter.ts`) -/

def REQUEST_TIMEOUT_MS : Nat := 30000

def MAX_RETRIES : Nat := 3

def BASE_RETRY_DELAY_MS : Nat := 1000

/-- The error channel of `postChatCompletion`: `OpenRouterError` (carrying an
optional status code), `RateLimitError`, `NetworkError`, `TimeoutError`,
`ModelNotFoundError`, `SchemaValidationError`. -/
inductive ApiError where
  | openRouterErr (statusCode : Option Nat) (body : String)
  | rateLimit (retryAfter : Option Nat)
  | network (reason : String)
  | timeoutErr (timeoutMs : Nat)
  | modelNotFound (model : String)
  | schemaValidation (reason : String)
deriving Repr, DecidableEq

/-- One attempt of `postChatCompletion` either yields the choice content
string or fails with an `ApiError`. -/
inductive ApiOutcome where
  | success (content : String)
  | failure (e : ApiError)
deriving Repr, DecidableEq

/-- `isRetryableStatusCode` from `src/openrouter.ts`. -/
def isRetryableStatusCode (status : Nat) : Bool :=
  status == 429 || status == 500 || status == 502 || status == 503 || status == 504

/-- `isRetryableError` from `src/openrouter.ts`: a `RateLimitError`, or an
`OpenRouterError` whose `statusCode` is defined and retryable. -/
def isRetryableError : ApiError → Bool
  | .rateLimit _ => true
  | .openRouterErr (some s) _ => isRetryableStatusCode s
  | _ => false

/-- The delay slept before re-attempting after the failure of the 1-based
`attempt`: `BASE_RETRY_DELAY_MS * Math.pow(2, attempt - 1)`. -/
def retryDelayMs (attempt : Nat) : Nat := BASE_RETRY_DELAY_MS * 2 ^ (attempt - 1)

/-- The recursion of `postChatCompletionWithRetry`. `oracle n` is the outcome
of the n-th attempt of `postChatCompletion`. Returns the final result and the
list of backoff delays slept, in order. The `fuel` argument bounds the
recursion; called with `fuel = MAX_RETRIES` from `attempt = 1` it is never
exhausted, because the code retries only while `attempt ≤ MAX_RETRIES`. -/
def retryLoop (oracle : Nat → ApiOutcome) : Nat → Nat → Except ApiError String × List Nat
  | attempt, fuel + 1 =>
    match oracle attempt with
    | .success c => (.ok c, [])
    | .failure e =>
      if isRetryableError e && attempt ≤ MAX_RETRIES then
        let rest := retryLoop oracle (attempt + 1) fuel
        (rest.1, retryDelayMs attempt :: rest.2)
      else (.error e, [])
  | attempt, 0 =>
    match oracle attempt with
    | .success c => (.ok c, [])
    | .failure e => (.error e, [])

/-- `postChatCompletionWithRetry` from `src/openrouter.ts`, as a function of
the per-attempt outcomes. -/
def postChatCompletionWithRetry (oracle : Nat → ApiOutcome) :
    Except ApiError String × List Nat :=
  retryLoop oracle 1 MAX_RETRIES

/-- Modelled from the spec's words (for comparison with the code's
`isRetryableStatusCode`): the retryable-status set described as "rate-limited
429 or server-side 5xx-class". -/
def specRetryableStatus (status : Nat) : Bool :=
  status == 429 || (500 ≤ status && status ≤ 599)

/-! ## Models of the JavaScript string primitives used by the source

`String.prototype.trim`, `split(",")`, `endsWith`, `includes` and the specific
regex replaces are modelled as executable functions on `List Char`. -/

/-- The whitespace characters relevant to `String.prototype.trim` and to the
`\s` character class (ASCII part). -/
def jsWhitespace (c : Char) : Bool :=
  c = ' ' || c = '\t' || c = '\n' || c = '\r' || c = '\x0b' || c = '\x0c'

/-- Model of `String.prototype.trim`. -/
def jsTrim (cs : List Char) : List Char :=
  ((cs.dropWhile jsWhitespace).reverse.dropWhile jsWhitespace).reverse

def jsTrimStr (s : String) : String := String.mk (jsTrim s.data)

/-- Model of `String.prototype.split(",")`. -/
def splitOnComma : List Char → List (List Char)
  | [] => [[]]
  | c :: cs =>
    if c = ',' then [] :: splitOnComma cs
    else
      match splitOnComma cs with
      | s :: rest => (c :: s) :: rest
      | [] => [[c]]

/-- Model of `String.prototype.includes` (substring containment). -/
def containsSubstr (hay pat : List Char) : Bool :=
  match hay with
  | [] => pat.isEmpty
  | _ :: tl => pat.isPrefixOf hay || containsSubstr tl pat

/-! ## Classification response cleaning (`src/openrouter.ts`)

`classifyMessage` strips markdown fences from the model output with
`.replace(/```json\n?/g, "").replace(/```\n?/g, "")` and trims. -/

/-- Model of `.replace(/```json\n?/g, "")`: each occurrence of three
backticks followed by `json` and an optional newline is removed. -/
def stripFencesJson : Nat → List Char → List Char
  | 0, cs => cs
  | _ + 1, [] => []
  | fuel + 1, c :: cs =>
    if ("```json\n".data.isPrefixOf (c :: cs)) then stripFencesJson fuel ((c :: cs).drop 8)
    else if ("```json".data.isPrefixOf (c :: cs)) then stripFencesJson fuel ((c :: cs).drop 7)
    else c :: stripFencesJson fuel cs

/-- Model of `.replace(/```\n?/g, "")`. -/
def stripFencesBare : Nat → List Char → List Char
  | 0, cs => cs
  | _ + 1, [] => []
  | fuel + 1, c :: cs =>
    if ("```\n".data.isPrefixOf (c :: cs)) then stripFencesBare fuel ((c :: cs).drop 4)
    else if ("```".data.isPrefixOf (c :: cs)) then stripFencesBare fuel ((c :: cs).drop 3)
    else c :: stripFencesBare fuel cs

/-- The `cleaned` value computed by `classifyMessage`/`extractEvent`. -/
def cleanedResponse (content : String) : String :=
  let s1 := stripFencesJson content.data.length content.data
  let s2 := stripFencesBare s1.length s1
  String.mk (jsTrim s2)

/-- `classifyMessage` from `src/openrouter.ts`, as a function of the
per-attempt API outcomes. Returns the classification result (`ClassificationError`
reasons collapsed to strings) and the number of API calls made. Empty or
blank text short-circuits to `false` with no call; otherwise the response is
validated against the `"0" | "1"` schema. -/
def classifyMessage (text : String) (oracle : Nat → ApiOutcome) :
    Except String Bool × Nat :=
  if text = "" || jsTrimStr text = "" then (.ok false, 0)
  else
    let r := postChatCompletionWithRetry oracle
    match r.1 with
    | .error _ => (.error "ClassificationError", r.2.length + 1)
    | .ok content =>
      let cleaned := cleanedResponse content
      if cleaned = "1" then (.ok true, r.2.length + 1)
      else if cleaned = "0" then (.ok false, r.2.length + 1)
      else (.error "ClassificationError: SchemaValidationError", r.2.length + 1)

/-! ## Connection state (`src/connection.ts`)

The baileys `DisconnectReason` numeric codes used by the source are an
external collaborator, modelled here with their library values. -/

def DisconnectReason.loggedOut : Nat := 401

def DisconnectReason.connectionLost : Nat := 408

def DisconnectReason.multideviceMismatch : Nat := 411

def DisconnectReason.connectionClosed : Nat := 428

def DisconnectReason.connectionReplaced : Nat := 440

def DisconnectReason.badSession : Nat := 500

def DisconnectReason.restartRequired : Nat := 515

/-- A `connection.update` event as consumed by `determineConnectionState`:
the `connection` field (one of the strings `"close"`, `"open"`,
`"connecting"`, or absent) and `lastDisconnect?.error?.output?.statusCode`. -/
structure ConnectionUpdate where
  connection : Option String
  statusCode : Option Nat
deriving Repr, DecidableEq

/-- The `ConnectionState` tagged union from `src/types.ts`. -/
inductive ConnState where
  | loggedOut
  | disconnectedNoReconnect
  | disconnectedWithReconnect (isConflict : Bool)
  | connected
  | connecting
deriving Repr, DecidableEq

/-- `determineConnectionState` from `src/connection.ts`. -/
def determineConnectionState (u : ConnectionUpdate) : ConnState :=
  if u.connection = some "close" then
    if u.statusCode = some DisconnectReason.loggedOut then .loggedOut
    else .disconnectedWithReconnect (u.statusCode = some DisconnectReason.connectionClosed)
  else if u.connection = some "open" then .connected
  else .connecting

/-! ## Reconnect backoff (`src/connection.ts`, `index.ts`) -/

def BASE_RECONNECT_DELAY_MS : Nat := 2500

def MAX_RECONNECT_RETRIES : Nat := 5

/-- The delay computed by `onReconnect` in `index.ts`:
`BASE_RECONNECT_DELAY_MS * Math.pow(2.5, reconnectRetryCount)`. -/
def reconnectDelayMs (n : Nat) : ℚ :=
  (BASE_RECONNECT_DELAY_MS : ℚ) * (5 / 2 : ℚ) ^ n

/-- One run of `onReconnect` from the module-level counter `n`: when the
counter exceeds `MAX_RECONNECT_RETRIES` the process exits (`none`);
otherwise the listener is restarted after `reconnectDelayMs n` and the
counter is incremented. -/
def reconnectStep (n : Nat) : Option (ℚ × Nat) :=
  if n > MAX_RECONNECT_RETRIES then none
  else some (reconnectDelayMs n, n + 1)

/-- The `Connected` branch of `handleConnectionChange` in `index.ts`:
`reconnectRetryCount = 0`. -/
def resetRetryCount (_n : Nat) : Nat := 0

/-! ## Configuration and group admission (`src/config.ts`, `src/message-handler.ts`) -/

/-- The `Config` union from `src/config.ts`: `MonitorConfig` with its
allow-list, or `DiscoveryConfig`. -/
inductive AppConfig where
  | monitor (allowedGroupJids : List String)
  | discovery
deriving Repr, DecidableEq

/-- `isGroupAllowed` from `src/config.ts`:
`config.mode === "monitor" && config.allowedGroupJids.includes(groupJid)`. -/
def isGroupAllowed (config : AppConfig) (groupJid : String) : Bool :=
  match config with
  | .monitor l => l.contains groupJid
  | .discovery => false

/-- The error raised by `parseAllowedGroups` when entries exist but none is a
valid group JID. -/
inductive ConfigLoadError where
  | invalidJidFormat (value : String) (context : String)
deriving Repr, DecidableEq

/-- The trimmed, non-empty entries of the comma-separated env value:
`envValue.split(",").map(jid => jid.trim()).filter(jid => jid.length > 0)`. -/
def parsedJids (envValue : String) : List String :=
  (((splitOnComma envValue.data).map (fun l => String.mk (jsTrim l))).filter
    (fun j => j.length != 0))

/-- The entries of `parsedJids` that end with the reserved group suffix. -/
def validJidsOf (envValue : String) : List String :=
  (parsedJids envValue).filter (fun j => j.endsWith "@g.us")

/-- The entries of `parsedJids` that do not end with the reserved group
suffix; these are logged in a warning and discarded. -/
def invalidJidsOf (envValue : String) : List String :=
  (parsedJids envValue).filter (fun j => !(j.endsWith "@g.us"))

/-- `parseAllowedGroups` from `src/config.ts`. Returns the valid JIDs
together with the list of invalid entries reported in the warning (empty
when no warning is logged). -/
def parseAllowedGroups (envValue : String) :
    Except ConfigLoadError (List String × List String) :=
  if parsedJids envValue = [] then .ok ([], [])
  else if validJidsOf envValue = [] then
    .error (.invalidJidFormat envValue "No valid group JIDs found")
  else .ok (validJidsOf envValue, invalidJidsOf envValue)

/-- `loadConfig` from `src/config.ts`, as a function of the
`WHATSAPP_ALLOWED_GROUPS` environment value. -/
def loadConfig (env : Option String) : Except ConfigLoadError AppConfig :=
  match env with
  | none => .ok .discovery
  | some v =>
    if v = "" then .ok .discovery
    else
      match parseAllowedGroups v with
      | .error e => .error e
      | .ok (valid, _) => if valid = [] then .ok .discovery else .ok (.monitor valid)

/-! ## Data model (`src/types.ts`, `src/openrouter.ts`) -/

/-- The location type of an extracted event: `"IN-PERSON" | "ONLINE"`. -/
inductive LocationType where
  | inPerson
  | online
deriving Repr, DecidableEq

/-- The `location` field of the `EventSchema`. -/
structure EventLocation where
  type : LocationType
  fullAddress : Option String
deriving Repr, DecidableEq

/-- The `Event` produced by a successful extraction (`EventSchema`). -/
structure ExtractedEvent where
  slug : String
  title : String
  description : String
  organizer : String
  startAt : String
  endAt : Option String
  location : EventLocation
deriving Repr, DecidableEq

/-- The media kinds of `MessageType` in `src/types.ts`. -/
inductive MsgKind where
  | text
  | image
  | video
  | audio
  | document
  | sticker
  | location
  | contact
  | unknown
deriving Repr, DecidableEq

/-- `MediaInfo` from `src/types.ts`. -/
structure MediaInfo where
  mimeType : String
  data : String
  caption : Option String
deriving Repr, DecidableEq

/-- The canonical `WhatsAppMessage` from `src/types.ts`. -/
structure WhatsAppMessage where
  id : String
  fromJid : String
  fromMe : Bool
  author : Option String
  type : MsgKind
  content : Option String
  media : Option MediaInfo
  timestamp : Nat
  groupJid : Option String
deriving Repr, DecidableEq

/-- The admission decision of `handleIncomingMessage` in
`src/message-handler.ts`: the message proceeds to the extraction pipeline
unless the config is in discovery mode, the message is not a group message,
or its group JID is not in the allow-list. -/
def messageAdmitted (config : AppConfig) (m : WhatsAppMessage) : Bool :=
  match config with
  | .discovery => false
  | .monitor allowed =>
    match m.groupJid with
    | none => false
    | some g => allowed.contains g

/-- The allow-list snapshot a configuration carries, in the spec's reading:
the configured list in monitor mode, and the empty set in discovery mode
(where `DiscoveryConfig` carries no list). -/
def allowListOf : AppConfig → List String
  | .monitor l => l
  | .discovery => []

/-! ## Markdown normalization (`src/db/markdown.ts`)

`whatsappMessageToMarkdown` applies the URL replace
`/(https?:\/\/[^\s]+)/gi` and then the four formatting replaces. The regex
engine semantics (global, case-insensitive, lazy quantifiers, `.` excluding
newlines unless the `s` flag is set) are modelled by explicit scanners. -/

/-- Case-insensitive match of a literal (lowercase) pattern; returns the
matched original characters and the remainder. -/
def charsCI (pat : List Char) (cs : List Char) : Option (List Char × List Char) :=
  match pat, cs with
  | [], rest => some ([], rest)
  | _ :: _, [] => none
  | p :: ps, c :: rest =>
    if c.toLower = p then
      match charsCI ps rest with
      | some (m, r) => some (c :: m, r)
      | none => none
    else none

/-- Match `https?:\/\/[^\s]+` at the head of the input; returns the matched
URL characters and the remainder. -/
def matchUrl (cs : List Char) : Option (List Char × List Char) :=
  match charsCI "http".data cs with
  | none => none
  | some (m1, r1) =>
    let sOpt : List Char × List Char :=
      match r1 with
      | c :: rest => if c.toLower = 's' then (m1 ++ [c], rest) else (m1, r1)
      | [] => (m1, r1)
    match charsCI "://".data sOpt.2 with
    | none => none
    | some (m3, r3) =>
      let body := r3.takeWhile (fun c => !jsWhitespace c)
      if body.isEmpty then none
      else some (sOpt.1 ++ m3 ++ body, r3.drop body.length)

/-- Model of `.replace(URL_REGEX, match => "[enlace externo](" + match + ")")`. -/
def convertUrls : Nat → List Char → List Char
  | 0, cs => cs
  | _ + 1, [] => []
  | fuel + 1, c :: cs =>
    match matchUrl (c :: cs) with
    | some (url, rest) =>
      "[enlace externo](".data ++ url ++ ")".data ++ convertUrls fuel rest
    | none => c :: convertUrls fuel cs

/-- Find the first occurrence of the closing delimiter: returns the
characters before it and the remainder after it. When `allowNl` is false the
search fails at a newline, reflecting `.` without the `s` flag. -/
def findClose (delim : List Char) (allowNl : Bool) : List Char → Option (List Char × List Char)
  | [] => none
  | c :: cs =>
    if delim.isPrefixOf (c :: cs) then some ([], (c :: cs).drop delim.length)
    else if !allowNl && c = '\n' then none
    else
      match findClose delim allowNl cs with
      | some (mid, rest) => some (c :: mid, rest)
      | none => none

/-- One global lazy-wrap replace pass: each `delim…delim` span becomes
`wrapL…wrapR`; where no closing delimiter is reachable the scanner advances
one character, as the regex engine does. -/
def wrapPass (delim wrapL wrapR : List Char) (allowNl : Bool) :
    Nat → List Char → List Char
  | 0, cs => cs
  | _ + 1, [] => []
  | fuel + 1, c :: cs =>
    if delim.isPrefixOf (c :: cs) then
      match findClose delim allowNl ((c :: cs).drop delim.length) with
      | some (mid, rest) =>
        wrapL ++ mid ++ wrapR ++ wrapPass delim wrapL wrapR allowNl fuel rest
      | none => c :: wrapPass delim wrapL wrapR allowNl fuel cs
    else c :: wrapPass delim wrapL wrapR allowNl fuel cs

/-- `preserveWhatsAppFormatting` from `src/db/markdown.ts`: monospace, bold,
italic, strikethrough, in the source's order. -/
def preserveWhatsAppFormatting (cs : List Char) : List Char :=
  let p1 := wrapPass "```".data "`".data "`".data true cs.length cs
  let p2 := wrapPass "*".data "**".data "**".data false p1.length p1
  let p3 := wrapPass "_".data "_".data "_".data false p2.length p2
  wrapPass "~".data "~~".data "~~".data false p3.length p3

/-- `whatsappMessageToMarkdown` from `src/db/markdown.ts`. -/
def whatsappMessageToMarkdown (content : String) : String :=
  if content = "" then ""
  else String.mk (preserveWhatsAppFormatting (convertUrls content.data.length content.data))

/-! ## Epoch-seconds to ISO-8601 (`convertTimestampToIso` in
`src/db/event-storage.ts`)

`new Date(unixSeconds * 1000).toISOString()` is an external collaborator; it
is modelled by the proleptic-Gregorian civil-from-days conversion and the
`YYYY-MM-DDTHH:MM:SS.000Z` rendering (the milliseconds are always zero
because the stored value is whole seconds). -/

def epochDays (n : Nat) : Nat := n / 86400

def isoHour (n : Nat) : Nat := n % 86400 / 3600

def isoMinute (n : Nat) : Nat := n % 3600 / 60

def isoSecond (n : Nat) : Nat := n % 60

/-- The Gregorian leap-year rule. -/
def isLeapYear (y : Nat) : Bool := (y % 4 == 0 && y % 100 != 0) || (y % 400 == 0)

def daysInYear (y : Nat) : Nat := if isLeapYear y then 366 else 365

/-- Walk whole years forward from `y`, consuming days, until fewer than a
year's worth remain: returns the final year and the day of year (0-based). -/
def yearLoop : Nat → Nat → Nat → Nat × Nat
  | 0, y, d => (y, d)
  | fuel + 1, y, d =>
    if d < daysInYear y then (y, d) else yearLoop fuel (y + 1) (d - daysInYear y)

/-- Days from 1600-01-01 to the epoch 1970-01-01. -/
def DAYS_1600_TO_1970 : Nat := 135140

/-- Civil year and 0-based day of year of a day count since the epoch:
whole 400-year Gregorian cycles (146097 days each, anchored at 1600) are
skipped arithmetically, then at most 400 years are walked. -/
def civilYearDoy (days : Nat) : Nat × Nat :=
  let z := days + DAYS_1600_TO_1970
  yearLoop 400 (1600 + 400 * (z / 146097)) (z % 146097)

def monthLengths (leap : Bool) : List Nat :=
  [31, if leap then 29 else 28, 31, 30, 31, 30, 31, 31, 30, 31, 30, 31]

/-- Walk months, consuming the day of year: returns the month (1-based when
started at 1) and the 1-based day of month. -/
def monthLoop : List Nat → Nat → Nat → Nat × Nat
  | [], m, d => (m, d + 1)
  | len :: rest, m, d =>
    if d < len then (m, d + 1) else monthLoop rest (m + 1) (d - len)

def civilMonthDay (y doy : Nat) : Nat × Nat :=
  monthLoop (monthLengths (isLeapYear y)) 1 doy

def isoYear (n : Nat) : Nat := (civilYearDoy (epochDays n)).1

def isoDoy (n : Nat) : Nat := (civilYearDoy (epochDays n)).2

def isoMonth (n : Nat) : Nat := (civilMonthDay (isoYear n) (isoDoy n)).1

def isoDay (n : Nat) : Nat := (civilMonthDay (isoYear n) (isoDoy n)).2

def padDigits2 (n : Nat) : List Char :=
  [Nat.digitChar (n / 10 % 10), Nat.digitChar (n % 10)]

def padDigits4 (n : Nat) : List Char :=
  [Nat.digitChar (n / 1000 % 10), Nat.digitChar (n / 100 % 10),
   Nat.digitChar (n / 10 % 10), Nat.digitChar (n % 10)]

/-- The `YYYY-MM-DDTHH:MM:SS.000Z` rendering of `Date.prototype.toISOString`
for dates of years 0–9999 at a whole second. -/
def isoRender (y mo d h mi se : Nat) : String :=
  String.mk (padDigits4 y ++ '-' :: padDigits2 mo ++ '-' :: padDigits2 d ++
    'T' :: padDigits2 h ++ ':' :: padDigits2 mi ++ ':' :: padDigits2 se ++ ".000Z".data)

/-- `convertTimestampToIso` from `src/db/event-storage.ts`. -/
def convertTimestampToIso (unixSeconds : Nat) : String :=
  isoRender (isoYear unixSeconds) (isoMonth unixSeconds) (isoDay unixSeconds)
    (isoHour unixSeconds) (isoMinute unixSeconds) (isoSecond unixSeconds)

/-- The first epoch second of year 10000: below it `toISOString` uses the
plain four-digit-year format. -/
def ISO_MAX_EPOCH : Nat := 253402300800

/-- A valid ISO-8601 UTC timestamp string at whole-second precision: the
`YYYY-MM-DDTHH:MM:SS.000Z` rendering of in-range date-time components. -/
def isValidISO8601 (s : String) : Prop :=
  ∃ y mo d h mi se : Nat,
    y < 10000 ∧ 1 ≤ mo ∧ mo ≤ 12 ∧ 1 ≤ d ∧ d ≤ 31 ∧ h < 24 ∧ mi < 60 ∧ se < 60 ∧
    s = isoRender y mo d h mi se

/-! ## Event store (`src/db/schema.ts`, `src/db/event-storage.ts`)

The single `events` table with its `slug` and `whatsapp_message_id` unique
keys. The SQLite engine enforcing them is an external collaborator: an
insert violating a unique key fails with a message containing
`UNIQUE constraint failed`. -/

/-- A stored row of the `events` table (`$inferSelect`): `created_at` and
`updated_at` are integer epoch seconds on disk. -/
structure EventRow where
  id : Nat
  slug : String
  title : String
  description : String
  organizer : String
  startAt : String
  endAt : Option String
  locationType : LocationType
  fullAddress : Option String
  messageBody : String
  whatsappMessageId : String
  whatsappGroupJid : String
  whatsappSenderJid : String
  createdAt : Nat
  updatedAt : Nat
deriving Repr, DecidableEq

/-- An `InsertEvent` (`$inferInsert`): a row without the store-assigned id. -/
structure InsertEvent where
  slug : String
  title : String
  description : String
  organizer : String
  startAt : String
  endAt : Option String
  locationType : LocationType
  fullAddress : Option String
  messageBody : String
  whatsappMessageId : String
  whatsappGroupJid : String
  whatsappSenderJid : String
  createdAt : Nat
  updatedAt : Nat
deriving Repr, DecidableEq

/-- The database state: the table rows in insertion order and the next
autoincrement id. -/
structure DbState where
  rows : List EventRow
  nextId : Nat
deriving Repr, DecidableEq

def dbEmpty : DbState := ⟨[], 1⟩

/-- `EventToSave` from `src/db/event-storage.ts`. -/
structure EventToSave where
  event : ExtractedEvent
  messageBody : String
  whatsappMessageId : String
  whatsappGroupJid : String
  whatsappSenderJid : String
deriving Repr, DecidableEq

/-- `insertEventFromInput` from `src/db/event-storage.ts`: `now` models
`Math.floor(Date.now() / 1000)`, and the message body is stored after
markdown normalization. -/
def insertEventFromInput (input : EventToSave) (now : Nat) : InsertEvent :=
  { slug := input.event.slug
    title := input.event.title
    description := input.event.description
    organizer := input.event.organizer
    startAt := input.event.startAt
    endAt := input.event.endAt
    locationType := input.event.location.type
    fullAddress := input.event.location.fullAddress
    messageBody := whatsappMessageToMarkdown input.messageBody
    whatsappMessageId := input.whatsappMessageId
    whatsappGroupJid := input.whatsappGroupJid
    whatsappSenderJid := input.whatsappSenderJid
    createdAt := now
    updatedAt := now }

def rowOfInsert (id : Nat) (d : InsertEvent) : EventRow :=
  { id := id
    slug := d.slug
    title := d.title
    description := d.description
    organizer := d.organizer
    startAt := d.startAt
    endAt := d.endAt
    locationType := d.locationType
    fullAddress := d.fullAddress
    messageBody := d.messageBody
    whatsappMessageId := d.whatsappMessageId
    whatsappGroupJid := d.whatsappGroupJid
    whatsappSenderJid := d.whatsappSenderJid
    createdAt := d.createdAt
    updatedAt := d.updatedAt }

/-- Model of `db.insert(events).values(data)` under the schema's unique
keys: SQLite rejects a duplicate `slug` or `whatsapp_message_id` with a
`UNIQUE constraint failed` error and leaves the table unchanged. -/
def dbInsert (s : DbState) (d : InsertEvent) : Except String DbState :=
  match s.rows.any (fun r => r.slug == d.slug),
      s.rows.any (fun r => r.whatsappMessageId == d.whatsappMessageId) with
  | true, _ => .error "UNIQUE constraint failed: events.slug"
  | false, true => .error "UNIQUE constraint failed: events.whatsapp_message_id"
  | false, false => .ok ⟨s.rows ++ [rowOfInsert s.nextId d], s.nextId + 1⟩

/-- The error channel of `saveEvent`: `DuplicateEventError` or the generic
`EventStorageError`. -/
inductive SaveError where
  | duplicateEvent (slug : String) (whatsappMessageId : String)
  | storage (reason : String)
deriving Repr, DecidableEq

/-- `saveEvent` from `src/db/event-storage.ts`: an insert error whose
message contains `UNIQUE constraint failed` becomes `DuplicateEventError`;
any other insert error becomes `EventStorageError`. -/
def saveEvent (s : DbState) (input : EventToSave) (now : Nat) :
    Except SaveError DbState :=
  match dbInsert s (insertEventFromInput input now) with
  | .ok s' => .ok s'
  | .error msg =>
    match containsSubstr msg.data "UNIQUE constraint failed".data with
    | true => .error (.duplicateEvent input.event.slug input.whatsappMessageId)
    | false => .error (.storage msg)

/-- A `StoredEvent` as exposed to callers: timestamps converted to ISO
strings, the location type exposed as its literal. -/
structure StoredEvent where
  id : Nat
  slug : String
  title : String
  description : String
  organizer : String
  startAt : String
  endAt : Option String
  locationType : LocationType
  fullAddress : Option String
  messageBody : String
  whatsappMessageId : String
  whatsappGroupJid : String
  whatsappSenderJid : String
  createdAt : String
  updatedAt : String
deriving Repr, DecidableEq

def toStoredEvent (r : EventRow) : StoredEvent :=
  { id := r.id
    slug := r.slug
    title := r.title
    description := r.description
    organizer := r.organizer
    startAt := r.startAt
    endAt := r.endAt
    locationType := r.locationType
    fullAddress := r.fullAddress
    messageBody := r.messageBody
    whatsappMessageId := r.whatsappMessageId
    whatsappGroupJid := r.whatsappGroupJid
    whatsappSenderJid := r.whatsappSenderJid
    createdAt := convertTimestampToIso r.createdAt
    updatedAt := convertTimestampToIso r.updatedAt }

inductive FindError where
  | notFound (slug : String)
  | storage (reason : String)
deriving Repr, DecidableEq

/-- `findEventBySlug` from `src/db/event-storage.ts`:
`select … where slug = ? limit 1`. -/
def findEventBySlug (s : DbState) (slug : String) : Except FindError StoredEvent :=
  match s.rows.find? (fun r => r.slug == slug) with
  | none => .error (.notFound slug)
  | some r => .ok (toStoredEvent r)

/-- `findEventByWhatsAppMessageId` from `src/db/event-storage.ts`. -/
def findEventByWhatsAppMessageId (s : DbState) (messageId : String) :
    Except FindError StoredEvent :=
  match s.rows.find? (fun r => r.whatsappMessageId == messageId) with
  | none => .error (.notFound messageId)
  | some r => .ok (toStoredEvent r)

/-- The SQLite BINARY collation on TEXT values: lexicographic comparison of
the UTF-8 encodings, equivalently code-point-wise comparison. -/
def charListLe : List Char → List Char → Bool
  | [], _ => true
  | _ :: _, [] => false
  | a :: as, b :: bs => if a < b then true else if b < a then false else charListLe as bs

/-- `listAllEvents` from `src/db/event-storage.ts`:
`select … order by asc(events.startAt)`. The TEXT column is ordered by the
engine's default BINARY collation, modelled by `charListLe`. -/
def listAllEvents (s : DbState) : List StoredEvent :=
  (List.insertionSort
    (fun a b : EventRow => charListLe a.startAt.data b.startAt.data = true)
    s.rows).map toStoredEvent

/-- `deleteEvent` from `src/db/event-storage.ts`: not-found when no row was
affected. -/
def deleteEvent (s : DbState) (slug : String) : Except FindError DbState :=
  if s.rows.any (fun r => r.slug == slug) then
    .ok ⟨s.rows.filter (fun r => r.slug != slug), s.nextId⟩
  else .error (.notFound slug)

/-- The store states reachable through the `EventStorage` interface, which
exposes `saveEvent` and `deleteEvent` as its only mutations. -/
inductive ReachableDb : DbState → Prop where
  | empty : ReachableDb dbEmpty
  | save {s s' : DbState} {input : EventToSave} {now : Nat} :
      ReachableDb s → saveEvent s input now = .ok s' → ReachableDb s'
  | delete {s s' : DbState} {slug : String} :
      ReachableDb s → deleteEvent s slug = .ok s' → ReachableDb s'

/-! ## Per-message pipeline (`src/message-handler.ts`) -/

/-- A JavaScript-falsy optional string: absent or empty. -/
def jsFalsyStr : Option String → Bool
  | none => true
  | some s => s == ""

/-- The collaborators of one run of `processMessageForEvent`: the
classification API attempt outcomes, the result of `extractEvent` (its
internals are irrelevant to the pipeline), the store and the clock. -/
structure PipelineWorld where
  apiClassify : Nat → ApiOutcome
  extractResult : Except String ExtractedEvent
  db : DbState
  now : Nat

/-- What one run of `processMessageForEvent` did: how many classification
API calls were made, whether `extractEvent` was invoked, how many
`saveEvent` calls were made, and the resulting store. -/
structure PipelineResult where
  classifyApiCalls : Nat
  extractCalled : Bool
  saveCalls : Nat
  db : DbState
deriving Repr

/-- `processMessageForEvent` from `src/message-handler.ts`: falsy content
returns immediately; a classification error or a negative classification
ends the task; extraction failure ends the task; a missing group JID or
author ends the task; otherwise the event is saved once, with any save error
only logged. -/
def processMessageForEvent (msg : WhatsAppMessage) (w : PipelineWorld) :
    PipelineResult :=
  if jsFalsyStr msg.content then ⟨0, false, 0, w.db⟩
  else
    let t := msg.content.getD ""
    let c := classifyMessage t w.apiClassify
    match c.1 with
    | .error _ => ⟨c.2, false, 0, w.db⟩
    | .ok false => ⟨c.2, false, 0, w.db⟩
    | .ok true =>
      match w.extractResult with
      | .error _ => ⟨c.2, true, 0, w.db⟩
      | .ok ev =>
        if jsFalsyStr msg.groupJid || jsFalsyStr msg.author then ⟨c.2, true, 0, w.db⟩
        else
          let input : EventToSave :=
            ⟨ev, t, msg.id, msg.groupJid.getD "", msg.author.getD ""⟩
          match saveEvent w.db input w.now with
          | .ok db' => ⟨c.2, true, 1, db'⟩
          | .error _ => ⟨c.2, true, 1, w.db⟩

/-! ## Start-time instants (for comparing `startAt` strings)

The stored `startAt` is an ISO-8601 string with a UTC offset. To state what
"ordered by event start time" means, the instant such a string denotes is
recovered as seconds since the epoch. -/

def digitVal (c : Char) : Option Nat :=
  if c.isDigit then some (c.toNat - 48) else none

def read2 (cs : List Char) (i : Nat) : Option Nat := do
  let a ← cs.get? i >>= digitVal
  let b ← cs.get? (i + 1) >>= digitVal
  pure (a * 10 + b)

def read4 (cs : List Char) (i : Nat) : Option Nat := do
  let a ← read2 cs i
  let b ← read2 cs (i + 2)
  pure (a * 100 + b)

/-- Days from the epoch to civil date `y-m-d` (proleptic Gregorian,
`y ≥ 1600`). -/
def daysFromCivil (y m d : Nat) : Int :=
  let y' := y - (if m ≤ 2 then 1 else 0)
  let era := y' / 400
  let yoe := y' % 400
  let mp := (m + 9) % 12
  let doy := (153 * mp + 2) / 5 + d - 1
  let doe := yoe * 365 + yoe / 4 - yoe / 100 + doy
  (era : Int) * 146097 + (doe : Int) - 719468

/-- Parse `YYYY-MM-DDTHH:MM:SS` followed by `Z` or `±HH:MM` into the epoch
second it denotes. -/
def parseIsoInstant (s : String) : Option Int := do
  let cs := s.data
  let y ← read4 cs 0
  let mo ← read2 cs 5
  let d ← read2 cs 8
  let h ← read2 cs 11
  let mi ← read2 cs 14
  let se ← read2 cs 17
  let utc : Int := daysFromCivil y mo d * 86400 + (h * 3600 + mi * 60 + se : Nat)
  match cs.get? 19 with
  | some 'Z' => pure utc
  | some '+' => do
    let oh ← read2 cs 20
    let om ← read2 cs 23
    pure (utc - ((oh * 3600 + om * 60 : Nat) : Int))
  | some '-' => do
    let oh ← read2 cs 20
    let om ← read2 cs 23
    pure (utc + ((oh * 3600 + om * 60 : Nat) : Int))
  | _ => none

/-! ## Retry policy lemmas -/

lemma retryLoop_zero_success (oracle : Nat → ApiOutcome) (attempt : Nat) (c : String)
    (h : oracle attempt = .success c) : retryLoop oracle attempt 0 = (.ok c, []) := by
  simp [retryLoop, h]

lemma retryLoop_zero_fail (oracle : Nat → ApiOutcome) (attempt : Nat) (e : ApiError)
    (h : oracle attempt = .failure e) : retryLoop oracle attempt 0 = (.error e, []) := by
  simp [retryLoop, h]

lemma retryLoop_succ_success (oracle : Nat → ApiOutcome) (attempt fuel : Nat) (c : String)
    (h : oracle attempt = .success c) :
    retryLoop oracle attempt (fuel + 1) = (.ok c, []) := by
  simp [retryLoop, h]

lemma retryLoop_succ_fail_retry (oracle : Nat → ApiOutcome) (attempt fuel : Nat)
    (e : ApiError) (h : oracle attempt = .failure e)
    (hre : isRetryableError e = true) (hle : attempt ≤ MAX_RETRIES) :
    retryLoop oracle attempt (fuel + 1) =
      ((retryLoop oracle (attempt + 1) fuel).1,
        retryDelayMs attempt :: (retryLoop oracle (attempt + 1) fuel).2) := by
  simp [retryLoop, h, hre, hle]

lemma retryLoop_succ_fail_stop (oracle : Nat → ApiOutcome) (attempt fuel : Nat)
    (e : ApiError) (h : oracle attempt = .failure e)
    (hg : (isRetryableError e && decide (attempt ≤ MAX_RETRIES)) = false) :
    retryLoop oracle attempt (fuel + 1) = (.error e, []) := by
  simp only [retryLoop, h, hg]
  simp

lemma retryLoop_length_le (oracle : Nat → ApiOutcome) :
    ∀ (fuel attempt : Nat), (retryLoop oracle attempt fuel).2.length ≤ fuel := by
  intro fuel
  induction fuel with
  | zero =>
    intro attempt
    cases h : oracle attempt with
    | success c => rw [retryLoop_zero_success oracle attempt c h]; simp
    | failure e => rw [retryLoop_zero_fail oracle attempt e h]; simp
  | succ fuel ih =>
    intro attempt
    cases h : oracle attempt with
    | success c => rw [retryLoop_succ_success oracle attempt fuel c h]; simp
    | failure e =>
      by_cases hg : (isRetryableError e && decide (attempt ≤ MAX_RETRIES)) = true
      · have hg' : isRetryableError e = true ∧ attempt ≤ MAX_RETRIES := by simpa using hg
        rw [retryLoop_succ_fail_retry oracle attempt fuel e h hg'.1 hg'.2]
        simpa using Nat.succ_le_succ (ih (attempt + 1))
      · rw [retryLoop_succ_fail_stop oracle attempt fuel e h (Bool.not_eq_true _ ▸ hg)]
        simp

lemma retryLoop_delays (oracle : Nat → ApiOutcome) :
    ∀ (fuel attempt k : Nat), k < (retryLoop oracle attempt fuel).2.length →
      (retryLoop oracle attempt fuel).2.get? k = some (retryDelayMs (attempt + k))
      ∧ ∃ e, oracle (attempt + k) = .failure e ∧ isRetryableError e = true := by
  intro fuel
  induction fuel with
  | zero =>
    intro attempt k hk
    exfalso
    cases h : oracle attempt with
    | success c => rw [retryLoop_zero_success oracle attempt c h] at hk; simp at hk
    | failure e => rw [retryLoop_zero_fail oracle attempt e h] at hk; simp at hk
  | succ fuel ih =>
    intro attempt k hk
    cases h : oracle attempt with
    | success c =>
      exfalso
      rw [retryLoop_succ_success oracle attempt fuel c h] at hk
      simp at hk
    | failure e =>
      by_cases hg : (isRetryableError e && decide (attempt ≤ MAX_RETRIES)) = true
      · have hg' : isRetryableError e = true ∧ attempt ≤ MAX_RETRIES := by simpa using hg
        have heq := retryLoop_succ_fail_retry oracle attempt fuel e h hg'.1 hg'.2
        rw [heq] at hk
        rw [heq]
        cases k with
        | zero =>
          refine ⟨rfl, e, by simpa using h, hg'.1⟩
        | succ k =>
          have hk' : k < (retryLoop oracle (attempt + 1) fuel).2.length := by
            simpa using Nat.lt_of_succ_lt_succ (by simpa using hk)
          have hrec := ih (attempt + 1) k hk'
          have harith : attempt + 1 + k = attempt + (k + 1) := by omega
          refine ⟨?_, ?_⟩
          · simpa [harith] using hrec.1
          · rw [← harith]
            exact hrec.2
      · exfalso
        rw [retryLoop_succ_fail_stop oracle attempt fuel e h (Bool.not_eq_true _ ▸ hg)] at hk
        simp at hk

lemma retryLoop_outcome_ok (oracle : Nat → ApiOutcome) :
    ∀ (fuel attempt : Nat) (c : String),
      oracle (attempt + (retryLoop oracle attempt fuel).2.length) = .success c →
      (retryLoop oracle attempt fuel).1 = .ok c := by
  intro fuel
  induction fuel with
  | zero =>
    intro attempt c hc
    cases h : oracle attempt with
    | success c' =>
      rw [retryLoop_zero_success oracle attempt c' h] at hc ⊢
      simp only [List.length_nil, Nat.add_zero] at hc
      rw [h] at hc
      simp only [ApiOutcome.success.injEq] at hc
      simpa using hc
    | failure e =>
      rw [retryLoop_zero_fail oracle attempt e h] at hc
      simp only [List.length_nil, Nat.add_zero] at hc
      rw [h] at hc
      exact absurd hc (by simp)
  | succ fuel ih =>
    intro attempt c hc
    cases h : oracle attempt with
    | success c' =>
      rw [retryLoop_succ_success oracle attempt fuel c' h] at hc ⊢
      simp only [List.length_nil, Nat.add_zero] at hc
      rw [h] at hc
      simp only [ApiOutcome.success.injEq] at hc
      simpa using hc
    | failure e =>
      by_cases hg : (isRetryableError e && decide (attempt ≤ MAX_RETRIES)) = true
      · have hg' : isRetryableError e = true ∧ attempt ≤ MAX_RETRIES := by simpa using hg
        have heq := retryLoop_succ_fail_retry oracle attempt fuel e h hg'.1 hg'.2
        rw [heq] at hc ⊢
        simp only [List.length_cons] at hc
        have harith : attempt + ((retryLoop oracle (attempt + 1) fuel).2.length + 1) =
            attempt + 1 + (retryLoop oracle (attempt + 1) fuel).2.length := by omega
        rw [harith] at hc
        exact ih (attempt + 1) c hc
      · have heq := retryLoop_succ_fail_stop oracle attempt fuel e h (Bool.not_eq_true _ ▸ hg)
        rw [heq] at hc
        simp only [List.length_nil, Nat.add_zero] at hc
        rw [h] at hc
        exact absurd hc (by simp)

lemma retryLoop_outcome_err (oracle : Nat → ApiOutcome) :
    ∀ (fuel attempt : Nat), attempt + fuel = MAX_RETRIES + 1 →
      ∀ (e : ApiError),
      oracle (attempt + (retryLoop oracle attempt fuel).2.length) = .failure e →
      (retryLoop oracle attempt fuel).1 = .error e
      ∧ (isRetryableError e = false
         ∨ attempt + (retryLoop oracle attempt fuel).2.length = MAX_RETRIES + 1) := by
  intro fuel
  induction fuel with
  | zero =>
    intro attempt hside e he
    cases h : oracle attempt with
    | success c =>
      rw [retryLoop_zero_success oracle attempt c h] at he
      simp only [List.length_nil, Nat.add_zero] at he
      rw [h] at he
      exact absurd he (by simp)
    | failure e' =>
      rw [retryLoop_zero_fail oracle attempt e' h] at he ⊢
      simp only [List.length_nil, Nat.add_zero] at he ⊢
      rw [h] at he
      simp only [ApiOutcome.failure.injEq] at he
      subst he
      exact ⟨rfl, Or.inr (by omega)⟩
  | succ fuel ih =>
    intro attempt hside e he
    cases h : oracle attempt with
    | success c =>
      rw [retryLoop_succ_success oracle attempt fuel c h] at he
      simp only [List.length_nil, Nat.add_zero] at he
      rw [h] at he
      exact absurd he (by simp)
    | failure e' =>
      by_cases hg : (isRetryableError e' && decide (attempt ≤ MAX_RETRIES)) = true
      · have hg' : isRetryableError e' = true ∧ attempt ≤ MAX_RETRIES := by simpa using hg
        have heq := retryLoop_succ_fail_retry oracle attempt fuel e' h hg'.1 hg'.2
        rw [heq] at he ⊢
        simp only [List.length_cons] at he ⊢
        have harith : attempt + ((retryLoop oracle (attempt + 1) fuel).2.length + 1) =
            attempt + 1 + (retryLoop oracle (attempt + 1) fuel).2.length := by omega
        rw [harith] at he ⊢
        exact ⟨(ih (attempt + 1) (by omega) e he).1,
          (ih (attempt + 1) (by omega) e he).2⟩
      · have heq := retryLoop_succ_fail_stop oracle attempt fuel e' h (Bool.not_eq_true _ ▸ hg)
        rw [heq] at he ⊢
        simp only [List.length_nil, Nat.add_zero] at he ⊢
        rw [h] at he
        simp only [ApiOutcome.failure.injEq] at he
        subst he
        refine ⟨rfl, ?_⟩
        by_cases hr : isRetryableError e' = true
        · right
          have hnle : ¬ attempt ≤ MAX_RETRIES := by
            intro hle
            apply absurd hg
            simp [hr, hle]
          omega
        · left
          simpa using hr

/-- A concrete attempt oracle for the retry policy: rate-limited on the
first two attempts, successful on the third. -/
def c1Oracle : Nat → ApiOutcome :=
  fun n => if n ≤ 2 then .failure (.rateLimit none) else .success "1"

/-- C1 (amended): for every LLM call, each retried attempt `i` (1-based) had
failed with a retryable error — a rate-limit (429) or an `OpenRouterError`
whose status is in the code's retryable set {429, 500, 502, 503, 504} — and
was followed by a backoff delay of `BASE_RETRY_DELAY_MS * 2 ^ (i - 1)`
milliseconds; at most `MAX_RETRIES` retries happen; the final attempt's
success is returned as is, and its failure is returned as the call's error,
which is possible only when that failure is non-retryable (any other status,
including 501, or a schema-validation failure) or the retry budget is
exhausted. -/
theorem retry_policy_characterization (oracle : Nat → ApiOutcome) (k : Nat)
    (hk : k < (postChatCompletionWithRetry oracle).2.length) :
    (postChatCompletionWithRetry oracle).2.get? k =
      some (BASE_RETRY_DELAY_MS * 2 ^ k)
    ∧ (∃ e, oracle (k + 1) = .failure e ∧ isRetryableError e = true)
    ∧ (postChatCompletionWithRetry oracle).2.length ≤ MAX_RETRIES
    ∧ (∀ c, oracle ((postChatCompletionWithRetry oracle).2.length + 1) = .success c →
        (postChatCompletionWithRetry oracle).1 = .ok c)
    ∧ (∀ e, oracle ((postChatCompletionWithRetry oracle).2.length + 1) = .failure e →
        (postChatCompletionWithRetry oracle).1 = .error e
        ∧ (isRetryableError e = false
           ∨ (postChatCompletionWithRetry oracle).2.length = MAX_RETRIES)) := by
  simp only [postChatCompletionWithRetry] at hk ⊢
  have hdel := retryLoop_delays oracle MAX_RETRIES 1 k hk
  have hlen := retryLoop_length_le oracle MAX_RETRIES 1
  refine ⟨?_, ?_, hlen, ?_, ?_⟩
  · have : retryDelayMs (1 + k) = BASE_RETRY_DELAY_MS * 2 ^ k := by
      simp [retryDelayMs]
    rw [← this]
    exact hdel.1
  · have := hdel.2
    simpa [Nat.add_comm] using this
  · intro c hc
    apply retryLoop_outcome_ok oracle MAX_RETRIES 1 c
    simpa [Nat.add_comm] using hc
  · intro e he
    have := retryLoop_outcome_err oracle MAX_RETRIES 1 (by simp [MAX_RETRIES]) e
      (by simpa [Nat.add_comm] using he)
    refine ⟨this.1, ?_⟩
    rcases this.2 with h1 | h1
    · exact Or.inl h1
    · exact Or.inr (by omega)

/-- Witness for `retry_policy_characterization`: under `c1Oracle` the call
makes two retries with delays 1000 ms and 2000 ms and then succeeds. -/
theorem retry_policy_characterization_witness :
    0 < (postChatCompletionWithRetry c1Oracle).2.length
    ∧ ((postChatCompletionWithRetry c1Oracle).2.get? 0 =
        some (BASE_RETRY_DELAY_MS * 2 ^ 0)
      ∧ (∃ e, c1Oracle (0 + 1) = .failure e ∧ isRetryableError e = true)
      ∧ (postChatCompletionWithRetry c1Oracle).2.length ≤ MAX_RETRIES
      ∧ (∀ c, c1Oracle ((postChatCompletionWithRetry c1Oracle).2.length + 1) = .success c →
          (postChatCompletionWithRetry c1Oracle).1 = .ok c)
      ∧ (∀ e, c1Oracle ((postChatCompletionWithRetry c1Oracle).2.length + 1) = .failure e →
          (postChatCompletionWithRetry c1Oracle).1 = .error e
          ∧ (isRetryableError e = false
             ∨ (postChatCompletionWithRetry c1Oracle).2.length = MAX_RETRIES))) :=
  ⟨by decide, retry_policy_characterization c1Oracle 0 (by decide)⟩

/-- C1 counterexample: status 501 is in the spec's described retryable set
("429 or server-side 5xx-class") but the code fails immediately on it,
sleeping no backoff delay. -/
theorem retry_policy_5xx_counterexample :
    specRetryableStatus 501 = true
    ∧ isRetryableStatusCode 501 = false
    ∧ postChatCompletionWithRetry (fun _ => .failure (.openRouterErr (some 501) "")) =
        (.error (.openRouterErr (some 501) ""), []) := by
  exact ⟨by decide, by decide, rfl⟩

/-! ## Admission, connection and backoff theorems -/

/-- C2: a canonical message is admitted to the extraction pipeline iff its
group JID is non-null and is a member of the configuration's allow-list;
since a discovery-mode configuration carries the empty allow-list, no
message is admitted in discovery mode. -/
theorem admission_iff_allowlisted (config : AppConfig) (m : WhatsAppMessage) :
    messageAdmitted config m = true ↔
      ∃ g, m.groupJid = some g ∧ g ∈ allowListOf config := by
  cases config with
  | discovery =>
    simp [messageAdmitted, allowListOf]
  | monitor allowed =>
    cases hg : m.groupJid with
    | none => simp [messageAdmitted, allowListOf, hg]
    | some g =>
      simp only [messageAdmitted, allowListOf, hg]
      constructor
      · intro h
        exact ⟨g, rfl, by simpa using h⟩
      · rintro ⟨g', hg', hmem⟩
        cases hg'
        simpa using hmem

/-- C3: evaluation of `determineConnectionState` at the disconnect reasons
relevant to the claim. The logged-out code (401) is terminal; every other
`close` update is retryable. The `isConflict` flag is raised for
`DisconnectReason.connectionClosed` (428) — whose branch the source logs as
"Sesión reemplazada (otro dispositivo conectó)" — and NOT for
`DisconnectReason.connectionReplaced` (440), the baileys reason for another
device taking over the session. -/
theorem connection_state_classification :
    determineConnectionState ⟨some "close", some DisconnectReason.loggedOut⟩ = .loggedOut
    ∧ determineConnectionState ⟨some "close", some DisconnectReason.connectionReplaced⟩ =
        .disconnectedWithReconnect false
    ∧ determineConnectionState ⟨some "close", some DisconnectReason.connectionClosed⟩ =
        .disconnectedWithReconnect true
    ∧ determineConnectionState ⟨some "close", some DisconnectReason.connectionLost⟩ =
        .disconnectedWithReconnect false
    ∧ determineConnectionState ⟨some "close", none⟩ = .disconnectedWithReconnect false
    ∧ determineConnectionState ⟨some "open", none⟩ = .connected
    ∧ determineConnectionState ⟨some "connecting", none⟩ = .connecting := by
  refine ⟨rfl, ?_, ?_, ?_, ?_, ?_, rfl⟩ <;> decide

/-- C5: from a retry counter `n` that has not exceeded the bound, a
retryable disconnect schedules a restart after
`BASE_RECONNECT_DELAY_MS * 2.5 ^ n` milliseconds and increments the
counter; the delay is strictly increasing in the retry count; and the
`Connected` transition resets the counter to zero. -/
theorem reconnect_backoff_policy (n m k : Nat)
    (hn : n ≤ MAX_RECONNECT_RETRIES) (hmk : m < k) :
    reconnectStep n = some (reconnectDelayMs n, n + 1)
    ∧ reconnectDelayMs n = (BASE_RECONNECT_DELAY_MS : ℚ) * (5 / 2 : ℚ) ^ n
    ∧ reconnectDelayMs m < reconnectDelayMs k
    ∧ resetRetryCount n = 0 := by
  refine ⟨?_, rfl, ?_, rfl⟩
  · simp only [reconnectStep, if_neg (by omega : ¬ n > MAX_RECONNECT_RETRIES)]
  · have h1 : (1 : ℚ) < 5 / 2 := by norm_num
    have hpow : (5 / 2 : ℚ) ^ m < (5 / 2 : ℚ) ^ k := by
      exact pow_lt_pow_right₀ h1 hmk
    have hbase : (0 : ℚ) < (BASE_RECONNECT_DELAY_MS : ℚ) := by
      norm_num [BASE_RECONNECT_DELAY_MS]
    exact (mul_lt_mul_left hbase).mpr hpow

/-- Witness for `reconnect_backoff_policy` at counter 0 and counts 1 < 2. -/
theorem reconnect_backoff_policy_witness :
    (0 ≤ MAX_RECONNECT_RETRIES ∧ 1 < 2)
    ∧ (reconnectStep 0 = some (reconnectDelayMs 0, 0 + 1)
      ∧ reconnectDelayMs 0 = (BASE_RECONNECT_DELAY_MS : ℚ) * (5 / 2 : ℚ) ^ 0
      ∧ reconnectDelayMs 1 < reconnectDelayMs 2
      ∧ resetRetryCount 0 = 0) :=
  ⟨⟨by decide, by decide⟩, reconnect_backoff_policy 0 1 2 (by decide) (by decide)⟩

/-! ## Blank-text short-circuit -/

/-- C6: for a message whose text content is empty or whitespace-only,
classification yields "not an event" with zero API calls, and the pipeline
invokes no extraction call and no storage call, leaving the store
unchanged. -/
theorem blank_text_short_circuit (t : String) (oracle : Nat → ApiOutcome)
    (msg : WhatsAppMessage) (w : PipelineWorld)
    (ht : jsTrimStr t = "") (hc : msg.content = some t) :
    classifyMessage t oracle = (.ok false, 0)
    ∧ (processMessageForEvent msg w).classifyApiCalls = 0
    ∧ (processMessageForEvent msg w).extractCalled = false
    ∧ (processMessageForEvent msg w).saveCalls = 0
    ∧ (processMessageForEvent msg w).db = w.db := by
  have hclass : classifyMessage t oracle = (.ok false, 0) := by
    simp [classifyMessage, ht]
  refine ⟨hclass, ?_⟩
  by_cases hte : t = ""
  · subst hte
    have hfalsy : jsFalsyStr msg.content = true := by simp [jsFalsyStr, hc]
    simp [processMessageForEvent, hfalsy]
  · have hfalsy : jsFalsyStr msg.content = false := by
      simp [jsFalsyStr, hc, hte]
    have hget : msg.content.getD "" = t := by simp [hc]
    have hclass2 : classifyMessage t w.apiClassify = (.ok false, 0) := by
      simp [classifyMessage, ht]
    simp [processMessageForEvent, hfalsy, hget, hclass2]

/-- Witness for `blank_text_short_circuit`: a whitespace-only message in a
world whose oracles would answer positively. -/
def c6Message : WhatsAppMessage :=
  { id := "msg-1"
    fromJid := "g1@g.us"
    fromMe := false
    author := some "u1@s.whatsapp.net"
    type := .text
    content := some "  \n "
    media := none
    timestamp := 1700000000
    groupJid := some "g1@g.us" }

def c6World : PipelineWorld :=
  { apiClassify := fun _ => .success "1"
    extractResult := .error "ExtractionError"
    db := dbEmpty
    now := 1700000000 }

theorem blank_text_short_circuit_witness :
    (jsTrimStr "  \n " = "" ∧ c6Message.content = some "  \n ")
    ∧ (classifyMessage "  \n " c6World.apiClassify = (.ok false, 0)
      ∧ (processMessageForEvent c6Message c6World).classifyApiCalls = 0
      ∧ (processMessageForEvent c6Message c6World).extractCalled = false
      ∧ (processMessageForEvent c6Message c6World).saveCalls = 0
      ∧ (processMessageForEvent c6Message c6World).db = c6World.db) :=
  ⟨⟨by decide, rfl⟩,
    blank_text_short_circuit "  \n " c6World.apiClassify c6Message c6World
      (by decide) rfl⟩

/-! ## Allow-list parsing -/

/-- C9 (amended): for a configured allow-list value with at least one
(trimmed, non-empty) entry: when at least one entry matches the group-JID
convention, every non-matching entry is discarded with a warning and
loading succeeds in monitor mode with exactly the valid entries; when no
entry matches, loading fails with `ConfigError(InvalidJidFormat)` instead
of succeeding. -/
theorem allowlist_parsing (envValue : String) (h : parsedJids envValue ≠ []) :
    (validJidsOf envValue ≠ [] →
      parseAllowedGroups envValue = .ok (validJidsOf envValue, invalidJidsOf envValue)
      ∧ loadConfig (some envValue) = .ok (.monitor (validJidsOf envValue))
      ∧ ∀ j ∈ invalidJidsOf envValue,
          j.endsWith "@g.us" = false ∧ j ∉ validJidsOf envValue)
    ∧ (validJidsOf envValue = [] →
      parseAllowedGroups envValue =
        .error (.invalidJidFormat envValue "No valid group JIDs found")) := by
  constructor
  · intro hv
    have hne : envValue ≠ "" := by
      intro he
      apply h
      rw [he]
      decide
    refine ⟨?_, ?_, ?_⟩
    · simp [parseAllowedGroups, h, hv]
    · simp [loadConfig, hne, parseAllowedGroups, h, hv]
    · intro j hj
      have hj' := List.mem_filter.mp hj
      have hfalse : j.endsWith "@g.us" = false := by
        have := hj'.2
        simpa using this
      refine ⟨hfalse, ?_⟩
      intro hmem
      have := (List.mem_filter.mp hmem).2
      rw [hfalse] at this
      exact absurd this (by simp)
  · intro hv
    simp [parseAllowedGroups, h, hv]

/-- Witness for `allowlist_parsing`: the value `"a@g.us, bad"` keeps the
valid entry and discards `"bad"` with a warning. -/
theorem allowlist_parsing_witness :
    (parsedJids "a@g.us, bad" ≠ [])
    ∧ ((validJidsOf "a@g.us, bad" ≠ [] →
        parseAllowedGroups "a@g.us, bad" =
          .ok (validJidsOf "a@g.us, bad", invalidJidsOf "a@g.us, bad")
        ∧ loadConfig (some "a@g.us, bad") = .ok (.monitor (validJidsOf "a@g.us, bad"))
        ∧ ∀ j ∈ invalidJidsOf "a@g.us, bad",
            j.endsWith "@g.us" = false ∧ j ∉ validJidsOf "a@g.us, bad")
      ∧ (validJidsOf "a@g.us, bad" = [] →
        parseAllowedGroups "a@g.us, bad" =
          .error (.invalidJidFormat "a@g.us, bad" "No valid group JIDs found"))) :=
  ⟨by decide, allowlist_parsing "a@g.us, bad" (by decide)⟩

/-- C9 counterexample: the value `"foo"` consists of one entry that does not
match the group-identifier convention; the claim requires loading to succeed
with the (empty) remainder, but the code fails with
`ConfigError(InvalidJidFormat)`. -/
theorem allowlist_all_invalid_counterexample :
    invalidJidsOf "foo" = ["foo"]
    ∧ loadConfig (some "foo") =
        .error (.invalidJidFormat "foo" "No valid group JIDs found") :=
  ⟨rfl, rfl⟩

/-! ## Event store lemmas -/

lemma insertEventFromInput_slug (input : EventToSave) (now : Nat) :
    (insertEventFromInput input now).slug = input.event.slug := rfl

lemma insertEventFromInput_msgId (input : EventToSave) (now : Nat) :
    (insertEventFromInput input now).whatsappMessageId = input.whatsappMessageId := rfl

lemma saveEvent_ok_elim {s s' : DbState} {input : EventToSave} {now : Nat}
    (h : saveEvent s input now = .ok s') :
    s.rows.any (fun r => r.slug == input.event.slug) = false
    ∧ s.rows.any (fun r => r.whatsappMessageId == input.whatsappMessageId) = false
    ∧ s' = ⟨s.rows ++ [rowOfInsert s.nextId (insertEventFromInput input now)],
        s.nextId + 1⟩ := by
  by_cases h1 : s.rows.any (fun r => r.slug == input.event.slug) = true
  · exfalso
    rw [show input.event.slug = (insertEventFromInput input now).slug from rfl] at h1
    simp only [saveEvent, dbInsert, h1] at h
    revert h
    split <;> intro h <;> exact absurd h (by simp)
  · have h1' : s.rows.any (fun r => r.slug == (insertEventFromInput input now).slug)
        = false := by
      rw [show (insertEventFromInput input now).slug = input.event.slug from rfl]
      simpa using h1
    by_cases h2 : s.rows.any
        (fun r => r.whatsappMessageId == input.whatsappMessageId) = true
    · exfalso
      rw [show input.whatsappMessageId =
        (insertEventFromInput input now).whatsappMessageId from rfl] at h2
      simp only [saveEvent, dbInsert, h1', h2] at h
      revert h
      split <;> intro h <;> exact absurd h (by simp)
    · have h2' : s.rows.any (fun r => r.whatsappMessageId ==
          (insertEventFromInput input now).whatsappMessageId) = false := by
        rw [show (insertEventFromInput input now).whatsappMessageId =
          input.whatsappMessageId from rfl]
        simpa using h2
      refine ⟨by simpa using h1', by simpa using h2', ?_⟩
      simp only [saveEvent, dbInsert, h1', h2'] at h
      simpa using h.symm

lemma saveEvent_dup_of_msgId {s : DbState} {input : EventToSave} {now : Nat}
    (h : s.rows.any (fun r => r.whatsappMessageId == input.whatsappMessageId) = true) :
    saveEvent s input now =
      .error (.duplicateEvent input.event.slug input.whatsappMessageId) := by
  rw [show input.whatsappMessageId =
    (insertEventFromInput input now).whatsappMessageId from rfl] at h
  by_cases h1 : s.rows.any
      (fun r => r.slug == (insertEventFromInput input now).slug) = true
  · simp only [saveEvent, dbInsert, h1]
    have hc : containsSubstr "UNIQUE constraint failed: events.slug".data
        "UNIQUE constraint failed".data = true := by decide
    rw [hc]
  · have h1' : s.rows.any
        (fun r => r.slug == (insertEventFromInput input now).slug) = false := by
      simpa using h1
    simp only [saveEvent, dbInsert, h1', h]
    have hc : containsSubstr "UNIQUE constraint failed: events.whatsapp_message_id".data
        "UNIQUE constraint failed".data = true := by decide
    rw [hc]

lemma saveEvent_dup_of_slug {s : DbState} {input : EventToSave} {now : Nat}
    (h : s.rows.any (fun r => r.slug == input.event.slug) = true) :
    saveEvent s input now =
      .error (.duplicateEvent input.event.slug input.whatsappMessageId) := by
  rw [show input.event.slug = (insertEventFromInput input now).slug from rfl] at h
  simp only [saveEvent, dbInsert, h]
  have hc : containsSubstr "UNIQUE constraint failed: events.slug".data
      "UNIQUE constraint failed".data = true := by decide
  rw [hc]

lemma deleteEvent_ok_sublist {s s' : DbState} {slug : String}
    (h : deleteEvent s slug = .ok s') : s'.rows.Sublist s.rows := by
  simp only [deleteEvent] at h
  revert h
  split <;> intro h
  · simp only [Except.ok.injEq] at h
    rw [← h]
    exact List.filter_sublist _
  · exact absurd h (by simp)

lemma reachable_msgId_pairwise {s : DbState} (h : ReachableDb s) :
    s.rows.Pairwise (fun a b => a.whatsappMessageId ≠ b.whatsappMessageId) := by
  induction h with
  | empty => simp [dbEmpty]
  | save hr hsave ih =>
    rename_i s₀ s₁ input now
    obtain ⟨-, hany, heq⟩ := saveEvent_ok_elim hsave
    subst heq
    rw [List.pairwise_append]
    refine ⟨ih, by simp, ?_⟩
    intro a ha b hb
    simp only [List.mem_singleton] at hb
    subst hb
    rw [List.any_eq_false] at hany
    have hne : ¬ (a.whatsappMessageId == input.whatsappMessageId) = true := by
      simpa using hany a ha
    intro hcontra
    apply hne
    have hrow : (rowOfInsert s₀.nextId (insertEventFromInput input now)).whatsappMessageId
        = input.whatsappMessageId := rfl
    rw [hrow] at hcontra
    simp [hcontra]
  | delete hr hdel ih =>
    exact ih.sublist (deleteEvent_ok_sublist hdel)

lemma reachable_slug_pairwise {s : DbState} (h : ReachableDb s) :
    s.rows.Pairwise (fun a b => a.slug ≠ b.slug) := by
  induction h with
  | empty => simp [dbEmpty]
  | save hr hsave ih =>
    rename_i s₀ s₁ input now
    obtain ⟨hany, -, heq⟩ := saveEvent_ok_elim hsave
    subst heq
    rw [List.pairwise_append]
    refine ⟨ih, by simp, ?_⟩
    intro a ha b hb
    simp only [List.mem_singleton] at hb
    subst hb
    rw [List.any_eq_false] at hany
    have hne : ¬ (a.slug == input.event.slug) = true := by
      simpa using hany a ha
    intro hcontra
    apply hne
    have hrow : (rowOfInsert s₀.nextId (insertEventFromInput input now)).slug
        = input.event.slug := rfl
    rw [hrow] at hcontra
    simp [hcontra]
  | delete hr hdel ih =>
    exact ih.sublist (deleteEvent_ok_sublist hdel)

lemma countP_le_one_of_key_pairwise (key : EventRow → String) (v : String) :
    ∀ (l : List EventRow), l.Pairwise (fun a b => key a ≠ key b) →
      l.countP (fun r => key r == v) ≤ 1 := by
  intro l
  induction l with
  | nil => intro _; simp
  | cons a l ih =>
    intro hp
    rw [List.pairwise_cons] at hp
    by_cases ha : (key a == v) = true
    · have hv : key a = v := by simpa using ha
      have hzero : l.countP (fun r => key r == v) = 0 := by
        rw [List.countP_eq_zero]
        intro b hb
        have hab : key a ≠ key b := hp.1 b hb
        simp only [beq_iff_eq]
        rw [← hv]
        exact fun hc => hab hc.symm
      simp [List.countP_cons, ha, hzero]
    · have hrec := ih hp.2
      have ha' : (key a == v) = false := by simpa using ha
      simp only [List.countP_cons, ha']
      simpa using hrec

lemma reachable_created_eq_updated {s : DbState} (h : ReachableDb s) :
    ∀ r ∈ s.rows, r.createdAt = r.updatedAt := by
  induction h with
  | empty => simp [dbEmpty]
  | save hr hsave ih =>
    rename_i s₀ s₁ input now
    obtain ⟨-, -, heq⟩ := saveEvent_ok_elim hsave
    subst heq
    intro r hrmem
    rcases List.mem_append.mp hrmem with hl | hl
    · exact ih r hl
    · simp only [List.mem_singleton] at hl
      subst hl
      rfl
  | delete hr hdel ih =>
    intro r hrmem
    exact ih r ((deleteEvent_ok_sublist hdel).mem hrmem)

lemma pipeline_saveCalls_le_one (msg : WhatsAppMessage) (w : PipelineWorld) :
    (processMessageForEvent msg w).saveCalls ≤ 1 := by
  unfold processMessageForEvent
  repeat' split
  all_goals try simp
  all_goals
    cases hcl : (classifyMessage (msg.content.getD "") w.apiClassify).1 with
    | error e => simp [hcl]
    | ok b =>
      cases b
      · simp [hcl]
      · simp only [hcl]
        repeat' split
        all_goals simp

/-- C4: duplicate submissions are reported as the distinguishable
`DuplicateEventError`, never as a generic storage error: after a successful
save, a second save carrying the same external WhatsApp message id (or the
same slug) fails with `DuplicateEventError`; in every reachable store state
at most one row carries any given message id (and any given slug); and the
pipeline issues at most one save per message, so a duplicate outcome is
never retried. -/
theorem duplicate_submission_detection :
    (∀ (s s' : DbState) (input input2 : EventToSave) (now now2 : Nat),
      saveEvent s input now = .ok s' →
      input2.whatsappMessageId = input.whatsappMessageId →
      saveEvent s' input2 now2 =
        .error (.duplicateEvent input2.event.slug input2.whatsappMessageId))
    ∧ (∀ (s s' : DbState) (input input2 : EventToSave) (now now2 : Nat),
      saveEvent s input now = .ok s' →
      input2.event.slug = input.event.slug →
      saveEvent s' input2 now2 =
        .error (.duplicateEvent input2.event.slug input2.whatsappMessageId))
    ∧ (∀ (s : DbState), ReachableDb s → ∀ mid : String,
      s.rows.countP (fun r => r.whatsappMessageId == mid) ≤ 1
      ∧ ∀ sl : String, s.rows.countP (fun r => r.slug == sl) ≤ 1)
    ∧ (∀ (msg : WhatsAppMessage) (w : PipelineWorld),
      (processMessageForEvent msg w).saveCalls ≤ 1) := by
  refine ⟨?_, ?_, ?_, pipeline_saveCalls_le_one⟩
  · intro s s' input input2 now now2 hok hmid
    obtain ⟨-, -, heq⟩ := saveEvent_ok_elim hok
    apply saveEvent_dup_of_msgId
    subst heq
    rw [List.any_append]
    have : (rowOfInsert s.nextId (insertEventFromInput input now)).whatsappMessageId
        = input.whatsappMessageId := rfl
    simp [this, hmid]
  · intro s s' input input2 now now2 hok hslug
    obtain ⟨-, -, heq⟩ := saveEvent_ok_elim hok
    apply saveEvent_dup_of_slug
    subst heq
    rw [List.any_append]
    have : (rowOfInsert s.nextId (insertEventFromInput input now)).slug
        = input.event.slug := rfl
    simp [this, hslug]
  · intro s hs mid
    refine ⟨countP_le_one_of_key_pairwise (fun r => r.whatsappMessageId) mid s.rows
      (reachable_msgId_pairwise hs), ?_⟩
    intro sl
    exact countP_le_one_of_key_pairwise (fun r => r.slug) sl s.rows
      (reachable_slug_pairwise hs)

/-- C10: `insertEventFromInput` stamps `createdAt` and `updatedAt` with the
same epoch-seconds clock value, and — the storage interface exposing no
update — every row of every reachable store state satisfies
`createdAt = updatedAt`. -/
theorem created_equals_updated (input : EventToSave) (now : Nat) (s : DbState)
    (h : ReachableDb s) :
    (insertEventFromInput input now).createdAt = now
    ∧ (insertEventFromInput input now).updatedAt = now
    ∧ ∀ r ∈ s.rows, r.createdAt = r.updatedAt :=
  ⟨rfl, rfl, reachable_created_eq_updated h⟩

/-- Witness for `created_equals_updated` at a store reached by one save. -/
def c10Input : EventToSave :=
  { event :=
      { slug := "demo-evento"
        title := "Demo"
        description := "d"
        organizer := "o"
        startAt := "2025-12-18T10:00:00-03:00"
        endAt := none
        location := { type := .inPerson, fullAddress := some "Hub Providencia" } }
    messageBody := "hola evento"
    whatsappMessageId := "wamid-10"
    whatsappGroupJid := "g1@g.us"
    whatsappSenderJid := "u1@s.whatsapp.net" }

def c10Db : DbState :=
  ⟨[rowOfInsert 1 (insertEventFromInput c10Input 1700000000)], 2⟩

theorem created_equals_updated_witness :
    ReachableDb c10Db
    ∧ ((insertEventFromInput c10Input 1700000000).createdAt = 1700000000
      ∧ (insertEventFromInput c10Input 1700000000).updatedAt = 1700000000
      ∧ ∀ r ∈ c10Db.rows, r.createdAt = r.updatedAt) :=
  have hreach : ReachableDb c10Db :=
    @ReachableDb.save dbEmpty c10Db c10Input 1700000000 ReachableDb.empty rfl
  ⟨hreach, created_equals_updated c10Input 1700000000 c10Db hreach⟩


/-! ## ISO-8601 validity of the rendered timestamps -/

lemma daysInYear_ge (y : Nat) : 365 ≤ daysInYear y := by
  unfold daysInYear
  split <;> omega

/-- Total days of the `k` consecutive years starting at `y`. -/
def sumDays : Nat → Nat → Nat
  | _, 0 => 0
  | y, k + 1 => daysInYear y + sumDays (y + 1) k

lemma sumDays_ge : ∀ (k y : Nat), 365 * k ≤ sumDays y k := by
  intro k
  induction k with
  | zero => intro y; simp [sumDays]
  | succ k ih =>
    intro y
    have h1 := daysInYear_ge y
    have h2 := ih (y + 1)
    simp only [sumDays]
    omega

set_option maxRecDepth 4000 in
lemma sumDays_9600 : sumDays 9600 400 = 146097 := by decide

lemma yearLoop_day_lt : ∀ (fuel y d : Nat), d < sumDays y fuel + 365 →
    (yearLoop fuel y d).2 < daysInYear (yearLoop fuel y d).1 := by
  intro fuel
  induction fuel with
  | zero =>
    intro y d hd
    simp only [sumDays] at hd
    simp only [yearLoop]
    have := daysInYear_ge y
    omega
  | succ fuel ih =>
    intro y d hd
    simp only [yearLoop]
    by_cases hguard : d < daysInYear y
    · simp [hguard]
    · simp only [hguard, if_false]
      apply ih
      simp only [sumDays] at hd
      omega

lemma yearLoop_year_le : ∀ (fuel y d : Nat), (yearLoop fuel y d).1 ≤ y + fuel := by
  intro fuel
  induction fuel with
  | zero => intro y d; simp [yearLoop]
  | succ fuel ih =>
    intro y d
    simp only [yearLoop]
    by_cases hguard : d < daysInYear y
    · simp only [hguard, if_true]
      omega
    · simp only [hguard, if_false]
      have := ih (y + 1) (d - daysInYear y)
      omega

lemma yearLoop_year_lt : ∀ (fuel y d : Nat), d < sumDays y fuel →
    (yearLoop fuel y d).1 < y + fuel := by
  intro fuel
  induction fuel with
  | zero =>
    intro y d hd
    simp [sumDays] at hd
  | succ fuel ih =>
    intro y d hd
    simp only [yearLoop]
    by_cases hguard : d < daysInYear y
    · simp only [hguard, if_true]
      omega
    · simp only [hguard, if_false]
      have := ih (y + 1) (d - daysInYear y)
      simp only [sumDays] at hd
      omega

lemma isoYear_lt (n : Nat) (hn : n < ISO_MAX_EPOCH) : isoYear n < 10000 := by
  unfold isoYear civilYearDoy epochDays ISO_MAX_EPOCH at *
  simp only []
  have hdays : n / 86400 ≤ 2932896 := by omega
  have hz : n / 86400 + DAYS_1600_TO_1970 ≤ 3068036 := by
    unfold DAYS_1600_TO_1970
    omega
  have hera : (n / 86400 + DAYS_1600_TO_1970) / 146097 ≤ 20 := by omega
  by_cases h20 : (n / 86400 + DAYS_1600_TO_1970) / 146097 = 20
  · rw [h20]
    have hrem : (n / 86400 + DAYS_1600_TO_1970) % 146097 < 146097 := by omega
    have := yearLoop_year_lt 400 (1600 + 400 * 20)
      ((n / 86400 + DAYS_1600_TO_1970) % 146097)
      (by rw [show 1600 + 400 * 20 = 9600 from rfl, sumDays_9600]; exact hrem)
    omega
  · have hle := yearLoop_year_le 400
      (1600 + 400 * ((n / 86400 + DAYS_1600_TO_1970) / 146097))
      ((n / 86400 + DAYS_1600_TO_1970) % 146097)
    omega

lemma isoDoy_lt (n : Nat) : isoDoy n < daysInYear (isoYear n) := by
  unfold isoYear isoDoy civilYearDoy
  apply yearLoop_day_lt
  have h1 := sumDays_ge 400 (1600 + 400 * ((epochDays n + DAYS_1600_TO_1970) / 146097))
  have h2 : (epochDays n + DAYS_1600_TO_1970) % 146097 < 146097 := by omega
  omega

lemma monthLengths_sum (y : Nat) : (monthLengths (isLeapYear y)).sum = daysInYear y := by
  unfold daysInYear
  cases h : isLeapYear y <;> simp [monthLengths, h]

lemma monthLengths_le31 (b : Bool) : ∀ len ∈ monthLengths b, len ≤ 31 := by
  cases b <;> decide

lemma monthLengths_length (b : Bool) : (monthLengths b).length = 12 := by
  cases b <;> rfl

lemma monthLoop_spec : ∀ (lens : List Nat) (m d : Nat), d < lens.sum →
    (∀ len ∈ lens, len ≤ 31) →
    m ≤ (monthLoop lens m d).1
    ∧ (monthLoop lens m d).1 < m + lens.length
    ∧ 1 ≤ (monthLoop lens m d).2
    ∧ (monthLoop lens m d).2 ≤ 31 := by
  intro lens
  induction lens with
  | nil =>
    intro m d hd _
    simp at hd
  | cons len rest ih =>
    intro m d hd hle
    simp only [monthLoop]
    by_cases hguard : d < len
    · simp only [hguard, if_true]
      have : len ≤ 31 := hle len (by simp)
      refine ⟨le_refl m, by simp, by omega, by omega⟩
    · simp only [hguard, if_false]
      have hd' : d - len < rest.sum := by
        simp only [List.sum_cons] at hd
        omega
      have hle' : ∀ l ∈ rest, l ≤ 31 := fun l hl => hle l (by simp [hl])
      have := ih (m + 1) (d - len) hd' hle'
      refine ⟨by omega, ?_, this.2.2.1, this.2.2.2⟩
      have := this.2.1
      simp only [List.length_cons]
      omega

lemma isoMonthDay_range (n : Nat) :
    1 ≤ isoMonth n ∧ isoMonth n ≤ 12 ∧ 1 ≤ isoDay n ∧ isoDay n ≤ 31 := by
  have hdoy := isoDoy_lt n
  have hsum : isoDoy n < (monthLengths (isLeapYear (isoYear n))).sum := by
    rw [monthLengths_sum]
    exact hdoy
  have hspec := monthLoop_spec (monthLengths (isLeapYear (isoYear n))) 1 (isoDoy n)
    hsum (monthLengths_le31 _)
  rw [monthLengths_length] at hspec
  unfold isoMonth isoDay civilMonthDay
  exact ⟨hspec.1, by omega, hspec.2.2.1, hspec.2.2.2⟩

lemma isoHour_lt (n : Nat) : isoHour n < 24 := by
  unfold isoHour
  omega

lemma isoMinute_lt (n : Nat) : isoMinute n < 60 := by
  unfold isoMinute
  omega

lemma isoSecond_lt (n : Nat) : isoSecond n < 60 := by
  unfold isoSecond
  omega

lemma convertTimestampToIso_valid (n : Nat) (hn : n < ISO_MAX_EPOCH) :
    isValidISO8601 (convertTimestampToIso n) :=
  ⟨isoYear n, isoMonth n, isoDay n, isoHour n, isoMinute n, isoSecond n,
    isoYear_lt n hn, (isoMonthDay_range n).1, (isoMonthDay_range n).2.1,
    (isoMonthDay_range n).2.2.1, (isoMonthDay_range n).2.2.2, isoHour_lt n,
    isoMinute_lt n, isoSecond_lt n, rfl⟩

/-! ## Save/fetch round trip -/

lemma find?_append_right {α : Type} (p : α → Bool) :
    ∀ (l₁ l₂ : List α), l₁.find? p = none → (l₁ ++ l₂).find? p = l₂.find? p := by
  intro l₁
  induction l₁ with
  | nil => intro l₂ _; rfl
  | cons a l ih =>
    intro l₂ hn
    by_cases hp : p a = true
    · rw [List.find?_cons_of_pos _ hp] at hn
      exact absurd hn (by simp)
    · have hp' : p a = false := by simpa using hp
      rw [List.find?_cons_of_neg _ (by simp [hp'])] at hn
      simp only [List.cons_append]
      rw [List.find?_cons_of_neg _ (by simp [hp'])]
      exact ih l₂ hn

/-- C7 (amended): after a successful `saveEvent`, fetching by the event's
slug succeeds and returns a value agreeing with the saved input on every
field except the store-generated `createdAt`/`updatedAt` — valid ISO-8601
strings — and `messageBody`, which holds the markdown normalization
`whatsappMessageToMarkdown` of the input body rather than the input body
itself. -/
theorem save_fetch_roundtrip (s : DbState) (input : EventToSave) (now : Nat)
    (s' : DbState) (hsave : saveEvent s input now = .ok s')
    (hnow : now < ISO_MAX_EPOCH) :
    ∃ st : StoredEvent, findEventBySlug s' input.event.slug = .ok st
      ∧ st.slug = input.event.slug
      ∧ st.title = input.event.title
      ∧ st.description = input.event.description
      ∧ st.organizer = input.event.organizer
      ∧ st.startAt = input.event.startAt
      ∧ st.endAt = input.event.endAt
      ∧ st.locationType = input.event.location.type
      ∧ st.fullAddress = input.event.location.fullAddress
      ∧ st.whatsappMessageId = input.whatsappMessageId
      ∧ st.whatsappGroupJid = input.whatsappGroupJid
      ∧ st.whatsappSenderJid = input.whatsappSenderJid
      ∧ st.messageBody = whatsappMessageToMarkdown input.messageBody
      ∧ isValidISO8601 st.createdAt
      ∧ isValidISO8601 st.updatedAt := by
  obtain ⟨hslug, -, heq⟩ := saveEvent_ok_elim hsave
  subst heq
  have hnone : s.rows.find? (fun r => r.slug == input.event.slug) = none := by
    rw [List.find?_eq_none]
    intro x hx
    rw [List.any_eq_false] at hslug
    simpa using hslug x hx
  have hfind : ((s.rows ++ [rowOfInsert s.nextId (insertEventFromInput input now)]).find?
      (fun r => r.slug == input.event.slug)) =
      some (rowOfInsert s.nextId (insertEventFromInput input now)) := by
    rw [find?_append_right _ _ _ hnone]
    have hrow : (rowOfInsert s.nextId (insertEventFromInput input now)).slug =
        input.event.slug := rfl
    simp [List.find?, hrow]
  refine ⟨toStoredEvent (rowOfInsert s.nextId (insertEventFromInput input now)), ?_,
    rfl, rfl, rfl, rfl, rfl, rfl, rfl, rfl, rfl, rfl, rfl, rfl,
    convertTimestampToIso_valid now hnow, convertTimestampToIso_valid now hnow⟩
  simp [findEventBySlug, hfind]

/-- The input used by the C7 witness and counterexample: its message body
carries WhatsApp bold markers. -/
def c7Input : EventToSave :=
  { event :=
      { slug := "expo"
        title := "Expo"
        description := "d"
        organizer := "o"
        startAt := "2025-12-18T10:00:00-03:00"
        endAt := none
        location := { type := .inPerson, fullAddress := some "Av. Siempre Viva 1" } }
    messageBody := "*hola*"
    whatsappMessageId := "wamid-7"
    whatsappGroupJid := "g1@g.us"
    whatsappSenderJid := "u1@s.whatsapp.net" }

def c7Db : DbState := ⟨[rowOfInsert 1 (insertEventFromInput c7Input 1700000000)], 2⟩

def c7Stored : StoredEvent :=
  toStoredEvent (rowOfInsert 1 (insertEventFromInput c7Input 1700000000))

theorem save_fetch_roundtrip_witness :
    (saveEvent dbEmpty c7Input 1700000000 = .ok c7Db ∧ 1700000000 < ISO_MAX_EPOCH)
    ∧ (∃ st : StoredEvent, findEventBySlug c7Db c7Input.event.slug = .ok st
      ∧ st.slug = c7Input.event.slug
      ∧ st.title = c7Input.event.title
      ∧ st.description = c7Input.event.description
      ∧ st.organizer = c7Input.event.organizer
      ∧ st.startAt = c7Input.event.startAt
      ∧ st.endAt = c7Input.event.endAt
      ∧ st.locationType = c7Input.event.location.type
      ∧ st.fullAddress = c7Input.event.location.fullAddress
      ∧ st.whatsappMessageId = c7Input.whatsappMessageId
      ∧ st.whatsappGroupJid = c7Input.whatsappGroupJid
      ∧ st.whatsappSenderJid = c7Input.whatsappSenderJid
      ∧ st.messageBody = whatsappMessageToMarkdown c7Input.messageBody
      ∧ isValidISO8601 st.createdAt
      ∧ isValidISO8601 st.updatedAt) :=
  ⟨⟨rfl, by decide⟩,
    save_fetch_roundtrip dbEmpty c7Input 1700000000 c7Db rfl (by decide)⟩

/-- C7 counterexample: the fetched row does not match the saved input on the
`messageBody` field — the input body `*hola*` is stored as its markdown
normalization `**hola**`. -/
theorem save_fetch_messageBody_counterexample :
    saveEvent dbEmpty c7Input 1700000000 = .ok c7Db
    ∧ findEventBySlug c7Db "expo" = .ok c7Stored
    ∧ c7Input.messageBody = "*hola*"
    ∧ c7Stored.messageBody = "**hola**" :=
  ⟨rfl, rfl, rfl, rfl⟩

/-! ## listAll ordering -/

lemma charListLe_total : ∀ (a b : List Char), charListLe a b = true ∨ charListLe b a = true := by
  intro a
  induction a with
  | nil => intro b; left; rfl
  | cons x xs ih =>
    intro b
    cases b with
    | nil => right; rfl
    | cons y ys =>
      simp only [charListLe]
      rcases lt_trichotomy x y with h | h | h
      · left; simp [h]
      · subst h
        simp only [lt_irrefl, if_false]
        exact ih ys
      · right; simp [h]

lemma charListLe_trans : ∀ (a b c : List Char),
    charListLe a b = true → charListLe b c = true → charListLe a c = true := by
  intro a
  induction a with
  | nil => intro b c _ _; rfl
  | cons x xs ih =>
    intro b c hab hbc
    cases b with
    | nil => simp [charListLe] at hab
    | cons y ys =>
      cases c with
      | nil => simp [charListLe] at hbc
      | cons z zs =>
        simp only [charListLe] at hab hbc ⊢
        rcases lt_trichotomy x y with hxy | hxy | hxy
        · rcases lt_trichotomy y z with hyz | hyz | hyz
          · simp [lt_trans hxy hyz]
          · subst hyz
            simp [hxy]
          · rw [if_neg (asymm hyz), if_pos hyz] at hbc
            exact absurd hbc (by simp)
        · subst hxy
          rw [if_neg (lt_irrefl x), if_neg (lt_irrefl x)] at hab
          rcases lt_trichotomy x z with hxz | hxz | hxz
          · simp [hxz]
          · subst hxz
            rw [if_neg (lt_irrefl x), if_neg (lt_irrefl x)] at hbc
            rw [if_neg (lt_irrefl x), if_neg (lt_irrefl x)]
            exact ih ys zs hab hbc
          · rw [if_neg (asymm hxz), if_pos hxz] at hbc
            exact absurd hbc (by simp)
        · rw [if_neg (asymm hxy), if_pos hxy] at hab
          exact absurd hab (by simp)

/-- C8 (amended): `listAllEvents` returns exactly the stored rows (a
permutation of the table) ordered ascending by the `startAt` string under
the BINARY collation (lexicographic by code point) — the order `ORDER BY`
gives the TEXT column. With mixed UTC offsets this can differ from
chronological start-time order. -/
theorem listAll_sorted_by_startAt_string (s : DbState) :
    List.Sorted
      (fun a b : StoredEvent => charListLe a.startAt.data b.startAt.data = true)
      (listAllEvents s)
    ∧ (listAllEvents s).Perm (s.rows.map toStoredEvent) := by
  haveI htotal : IsTotal EventRow
      (fun a b => charListLe a.startAt.data b.startAt.data = true) :=
    ⟨fun a b => charListLe_total a.startAt.data b.startAt.data⟩
  haveI htrans : IsTrans EventRow
      (fun a b => charListLe a.startAt.data b.startAt.data = true) :=
    ⟨fun _ _ _ hab hbc => charListLe_trans _ _ _ hab hbc⟩
  constructor
  · have hsorted := List.sorted_insertionSort
      (fun a b : EventRow => charListLe a.startAt.data b.startAt.data = true) s.rows
    exact List.Pairwise.map toStoredEvent (fun a b hab => hab) hsorted
  · exact (List.perm_insertionSort
      (fun a b : EventRow => charListLe a.startAt.data b.startAt.data = true)
      s.rows).map toStoredEvent

def c8Row1 : EventRow :=
  { id := 1
    slug := "evento-a"
    title := "A"
    description := "d"
    organizer := "o"
    startAt := "2025-01-01T23:00:00-05:00"
    endAt := none
    locationType := .online
    fullAddress := none
    messageBody := "m1"
    whatsappMessageId := "w1"
    whatsappGroupJid := "g1@g.us"
    whatsappSenderJid := "u1@s.whatsapp.net"
    createdAt := 1700000000
    updatedAt := 1700000000 }

def c8Row2 : EventRow :=
  { id := 2
    slug := "evento-b"
    title := "B"
    description := "d"
    organizer := "o"
    startAt := "2025-01-02T00:00:00+09:00"
    endAt := none
    locationType := .online
    fullAddress := none
    messageBody := "m2"
    whatsappMessageId := "w2"
    whatsappGroupJid := "g1@g.us"
    whatsappSenderJid := "u1@s.whatsapp.net"
    createdAt := 1700000000
    updatedAt := 1700000000 }

def c8Db : DbState := ⟨[c8Row1, c8Row2], 3⟩

/-- C8 counterexample: with mixed UTC offsets the returned order is by the
`startAt` string, not by event start time: the first returned row starts at
epoch second 1735790400, after the second returned row's 1735743600. -/
theorem listAll_not_time_ordered_counterexample :
    listAllEvents c8Db = [toStoredEvent c8Row1, toStoredEvent c8Row2]
    ∧ (toStoredEvent c8Row1).startAt = "2025-01-01T23:00:00-05:00"
    ∧ (toStoredEvent c8Row2).startAt = "2025-01-02T00:00:00+09:00"
    ∧ parseIsoInstant "2025-01-01T23:00:00-05:00" = some 1735790400
    ∧ parseIsoInstant "2025-01-02T00:00:00+09:00" = some 1735743600
    ∧ (1735743600 : Int) < 1735790400 :=
  ⟨rfl, rfl, rfl, rfl, rfl, by decide⟩
